import Mathlib

/-!
Verification development for the adaptive-collocation PINN scripts
(`tensorflow_collocation/Adaptive (CMC_paper)/AcousticDuct_adaptive.py` and
`tf2/PlateWithHole.py`).

The numeric arrays of the scripts are embedded as Lean lists over `ℚ`
(exact rational arithmetic in place of IEEE doubles); the trained neural
network is opaque, so its per-round predictions enter the model as oracle
functions.  NumPy's silent division-by-zero behaviour is tracked explicitly
by the `NpVal` type.
-/

/-! ## Selection rule (AcousticDuct_adaptive.py, lines 199-207) -/

/-- `np.round(n / 100)` for a natural numerator `n`, i.e. the rounding used in
`ntop = np.int(np.round(len(f_err)*N/100))`, evaluated in exact arithmetic:
round half to even (NumPy's rounding mode). -/
def npRound100 (n : Nat) : Nat :=
  let q := n / 100
  let r := n % 100
  if r < 50 then q else if 50 < r then q + 1 else if q % 2 = 0 then q else q + 1

/-- Python slice `l[0:stop]` for a possibly negative `stop` (a negative stop
counts from the end of the list, as in Python/NumPy). -/
def pyTake (stop : Int) (l : List α) : List α :=
  if stop < 0 then l.take (((l.length : Int) + stop).toNat) else l.take stop.toNat

/-- `np.argsort(-np.abs(f_err), axis=0)`: the indices of `f_err` sorted so
that absolute values are in descending order.  Embedded with a stable merge
sort on the index list `[0, ..., len-1]`. -/
def argsortNegAbs (fErr : List ℚ) : List Nat :=
  (List.range fErr.length).mergeSort (fun i j => decide (|fErr.getD j 0| ≤ |fErr.getD i 0|))

/-- `ntop = np.int(np.round(len(f_err)*N/100))` (line 201). -/
def ntopOf (n : Nat) (fErr : List ℚ) : Nat :=
  npRound100 (fErr.length * n)

/-- The indices of the promoted points: `index_f_err[0:ntop-1,:]`
(lines 202-203).  Note the slice stops at `ntop-1`. -/
def topIdx (n : Nat) (fErr : List ℚ) : List Nat :=
  pyTake ((ntopOf n fErr : Int) - 1) (argsortNegAbs fErr)

/-- `top_pred_X = np.concatenate((top_pred_xy, top_pred_val), axis=1)`
(lines 203-207): the promoted rows `(x, y, f)`, taking coordinates from
`pred_X` and forcing values from `f_val` at the selected indices. -/
def top_pred_X (n : Nat) (fErr fVal : List ℚ) (predX : List (ℚ × ℚ)) :
    List (ℚ × ℚ × ℚ) :=
  (topIdx n fErr).map (fun i => ((predX.getD i (0, 0)).1, (predX.getD i (0, 0)).2, fVal.getD i 0))

/-! ## Point grids -/

/-- Modelled from the spec: `QuadrilateralGeom.getUnifIntPts` (in
`utils/Geometry.py`, which is not part of the sources) per spec section 4.1:
a uniform `nx` by `ny` grid of points on the rectangle `(0,xmax)` by
`(0,ymax)`, with the boundary points kept or dropped according to the edge
flags.  The script only ever passes `[0,0,0,0]` (interior points only) or
`[1,1,1,1]` (the full grid), so the four flags are modelled by one
Boolean. -/
def unifGrid1D (len : ℚ) (n : Nat) (withEdges : Bool) : List ℚ :=
  if withEdges then (List.range n).map (fun i : Nat => len * (i : ℚ) / ((n : ℚ) - 1))
  else (List.range (n - 2)).map (fun i : Nat => len * ((i : ℚ) + 1) / ((n : ℚ) - 1))

def getUnifIntPts (xmax ymax : ℚ) (nx ny : Nat) (withEdges : Bool) : List (ℚ × ℚ) :=
  ((unifGrid1D ymax ny withEdges).map
    (fun y => (unifGrid1D xmax nx withEdges).map (fun x => (x, y)))).flatten

/-- The seed interior training grid: `getUnifIntPts(numIntPtsX, numIntPtsY,
[0,0,0,0])` with `numIntPtsX = 101`, `numIntPtsY = 51` on the domain
`(0,2)x(0,1)` (lines 50-51, 60-66). -/
def seedIntPts : List (ℚ × ℚ) := getUnifIntPts 2 1 101 51 false

/-- The dense evaluation grid for the error indicator:
`getUnifIntPts(2*numIntPtsX-1, 2*numIntPtsY-1, [0,0,0,0])` (lines 175-177). -/
def predIntPts : List (ℚ × ℚ) := getUnifIntPts 2 1 201 101 false

/-! ## NumPy division semantics for the relative-error indicator -/

/-- The value of a NumPy floating-point scalar expression: a finite value,
`inf`, or `nan`. -/
inductive NpVal where
  | finite (q : ℚ)
  | posInf
  | nan
deriving DecidableEq

/-- Sum of squares of a list (the square of its Euclidean norm). -/
def sumSq (l : List ℚ) : ℚ := (l.map (fun a => a * a)).sum

/-- `np.linalg.norm(num,2) / np.linalg.norm(den,2)` (line 186), embedded as
the *square* of the ratio to stay inside `ℚ` (no square roots): since
`‖v‖ = 0` iff `sumSq v = 0`, squaring changes neither the zero/NaN/inf
classification nor equality or ordering comparisons of the ratios.  A zero
denominator follows IEEE/NumPy semantics: `0/0 = nan`, `x/0 = inf` for
`x ≠ 0`. -/
def normRatioSq (num den : List ℚ) : NpVal :=
  if sumSq den = 0 then (if sumSq num = 0 then NpVal.nan else NpVal.posInf)
  else NpVal.finite (sumSq num / sumSq den)

/-! ## The adaptive refinement loop (lines 95-207)

The trained model is opaque; its per-round outputs enter as oracles:
`uo i` is the relative field error `error_u` computed in round `i`
(line 136, via `model.predict` on the display grid and the exact solution),
and `fo i` is the residual prediction `f_pred` of round `i` on the
error-indicator grid (line 181).  The metric arrays `rel_err`,
`rel_est_err`, `numPts` are preallocated with `np.zeros(numIter)` and
written at index `i` in round `i`; they are modelled as lists that grow by
one entry per round, which yields the same final contents. -/

/-- `numIter = 3` (line 46). -/
def numIter : Nat := 3

/-- The seed `X_int` rows `(x, y, f)` with `f_val = 0` (lines 67, 78, 91). -/
def seedXInt : List (ℚ × ℚ × ℚ) := seedIntPts.map (fun p => (p.1, p.2, 0))

/-- The mutable state threaded through the adaptivity loop. -/
structure LoopState where
  xInt : List (ℚ × ℚ × ℚ)
  topPredX : List (ℚ × ℚ × ℚ)
  relErr : List ℚ
  relEstErr : List NpVal
  numPts : List Nat
  rounds : Nat

/-- State before the loop: `X_int` is the seed set, `top_pred_X` is the
empty `(0,3)` array (line 92), no metrics recorded. -/
def initState : LoopState := ⟨seedXInt, [], [], [], [], 0⟩

/-- `f_val = np.zeros_like(pred_int_x_flat.T)` (line 183): the target
residual, identically zero on the evaluation grid. -/
def roundFVal : List ℚ := List.replicate predIntPts.length 0

/-- `f_err = f_val - f_pred` (line 185) in round `r`, with `f_pred` given by
the oracle `fo`. -/
def roundFErr (fo : Nat → List ℚ) (r : Nat) : List ℚ :=
  List.zipWith (fun a b => a - b) roundFVal (fo r)

/-- The `top_pred_X` computed at the end of round `r` (lines 199-207). -/
def roundTopPredX (fo : Nat → List ℚ) (r : Nat) : List (ℚ × ℚ × ℚ) :=
  top_pred_X 30 (roundFErr fo r) roundFVal predIntPts

/-- The `f_err_rel` recorded as `rel_est_err[r]` (lines 186, 189). -/
def roundRelEstErr (fo : Nat → List ℚ) (r : Nat) : NpVal :=
  normRatioSq (roundFErr fo r) roundFVal

/-- One round of the adaptivity loop (lines 104-207): merge the promoted
points into `X_int`, train (opaque), record `rel_err[i]`, evaluate the
residual on the dense interior grid, record `rel_est_err[i]` and
`numPts[i] = len(X_int)`, and select the top points for the next round. -/
def adaptiveRound (uo : Nat → ℚ) (fo : Nat → List ℚ) (s : LoopState) : LoopState :=
  { xInt := s.xInt ++ s.topPredX
    topPredX := roundTopPredX fo s.rounds
    relErr := s.relErr ++ [uo s.rounds]
    relEstErr := s.relEstErr ++ [roundRelEstErr fo s.rounds]
    numPts := s.numPts ++ [(s.xInt ++ s.topPredX).length]
    rounds := s.rounds + 1 }

/-- The state after `n` rounds of the adaptivity loop. -/
def runAdaptive (uo : Nat → ℚ) (fo : Nat → List ℚ) : Nat → LoopState
  | 0 => initState
  | n + 1 => adaptiveRound uo fo (runAdaptive uo fo n)

theorem seedIntPts_def : seedIntPts = getUnifIntPts 2 1 101 51 false := rfl

theorem predIntPts_def : predIntPts = getUnifIntPts 2 1 201 101 false := rfl

/- The two concrete grids hold thousands of points; blocking definitional
unfolding keeps the elaborator from evaluating them (all proofs below go
through their characterizing lemmas). -/
attribute [irreducible] seedIntPts predIntPts

/-! ## Helper lemmas: the selection rule -/

theorem argsortNegAbs_length (fErr : List ℚ) : (argsortNegAbs fErr).length = fErr.length := by
  simp [argsortNegAbs, List.length_mergeSort]

theorem argsortNegAbs_mem_lt (fErr : List ℚ) {i : Nat} (hi : i ∈ argsortNegAbs fErr) :
    i < fErr.length := by
  have hperm := List.mergeSort_perm (List.range fErr.length)
    (fun i j => decide (|fErr.getD j 0| ≤ |fErr.getD i 0|))
  have : i ∈ List.range fErr.length := hperm.mem_iff.mp hi
  exact List.mem_range.mp this

theorem topIdx_eq_take_1000 (fErr : List ℚ) (h : fErr.length = 1000) :
    topIdx 30 fErr = (argsortNegAbs fErr).take 299 := by
  have hn : ntopOf 30 fErr = 300 := by
    simp only [ntopOf, h]
    decide
  simp [topIdx, hn, pyTake]

theorem topIdx_length_1000 (fErr : List ℚ) (h : fErr.length = 1000) :
    (topIdx 30 fErr).length = 299 := by
  rw [topIdx_eq_take_1000 fErr h]
  rw [List.length_take, argsortNegAbs_length, h]
  decide

theorem argsortNegAbs_pairwise (fErr : List ℚ) :
    (argsortNegAbs fErr).Pairwise (fun i j => |fErr.getD j 0| ≤ |fErr.getD i 0|) := by
  have hs := @List.sorted_mergeSort Nat
    (fun i j => decide (|fErr.getD j 0| ≤ |fErr.getD i 0|))
    (fun a b c hab hbc => by
      have h1 := of_decide_eq_true hab
      have h2 := of_decide_eq_true hbc
      exact decide_eq_true (le_trans h2 h1))
    (fun a b => by
      simp only [Bool.or_eq_true, decide_eq_true_eq]
      exact (le_total (|fErr.getD a 0|) (|fErr.getD b 0|)).symm)
    (List.range fErr.length)
  exact hs.imp (fun hab => of_decide_eq_true hab)

/-- C1: with a residual array of length 1000 and `N = 30`, the promoted set
has exactly 299 entries (the slice `0:ntop-1` stops one short of
`ntop = round(1000*0.30) = 300`), and each promoted entry has absolute
residual magnitude at least that of every entry left out. -/
theorem C1_selection (fErr : List ℚ) (h : fErr.length = 1000) :
    (∀ fVal predX, (top_pred_X 30 fErr fVal predX).length = 299)
    ∧ ∀ i ∈ topIdx 30 fErr, ∀ j ∈ (argsortNegAbs fErr).drop 299,
        |fErr.getD j 0| ≤ |fErr.getD i 0| := by
  constructor
  · intro fVal predX
    unfold top_pred_X
    rw [List.length_map, topIdx_length_1000 fErr h]
  · intro i hi j hj
    rw [topIdx_eq_take_1000 fErr h] at hi
    have hp := argsortNegAbs_pairwise fErr
    rw [← List.take_append_drop 299 (argsortNegAbs fErr), List.pairwise_append] at hp
    exact hp.2.2 i hi j hj

/-- Witness for C1: the hypothesis of `C1_selection` holds at the concrete
length-1000 residual array of all 37s. -/
theorem C1_selection_witness :
    (∀ fVal predX,
        (top_pred_X 30 (List.replicate 1000 (37:ℚ)) fVal predX).length = 299)
    ∧ ∀ i ∈ topIdx 30 (List.replicate 1000 (37:ℚ)),
        ∀ j ∈ (argsortNegAbs (List.replicate 1000 (37:ℚ))).drop 299,
          |(List.replicate 1000 (37:ℚ)).getD j 0|
            ≤ |(List.replicate 1000 (37:ℚ)).getD i 0| :=
  C1_selection (List.replicate 1000 (37:ℚ)) (List.length_replicate 1000 _)

/-- Counterexample to C1 as stated: at a concrete residual array of length
1000 with `N = 30`, the promoted set does *not* have 300 entries (it has
299: the source slices `index_f_err[0:ntop-1]`). -/
theorem C1_selection_cex :
    (top_pred_X 30 (List.replicate 1000 (5:ℚ)) (List.replicate 1000 (0:ℚ))
        (List.replicate 1000 ((0:ℚ), (0:ℚ)))).length ≠ 300 := by
  have h : (top_pred_X 30 (List.replicate 1000 (5:ℚ)) (List.replicate 1000 (0:ℚ))
      (List.replicate 1000 ((0:ℚ), (0:ℚ)))).length = 299 := by
    unfold top_pred_X
    rw [List.length_map,
      topIdx_length_1000 (List.replicate 1000 (5:ℚ)) (List.length_replicate 1000 _)]
  omega

/-! ## Helper lemmas: the adaptivity loop -/

theorem adaptiveRound_xInt (uo : Nat → ℚ) (fo : Nat → List ℚ) (s : LoopState) :
    (adaptiveRound uo fo s).xInt = s.xInt ++ s.topPredX := rfl

theorem adaptiveRound_numPts (uo : Nat → ℚ) (fo : Nat → List ℚ) (s : LoopState) :
    (adaptiveRound uo fo s).numPts = s.numPts ++ [(s.xInt ++ s.topPredX).length] := rfl

theorem runAdaptive_rounds (uo : Nat → ℚ) (fo : Nat → List ℚ) (n : Nat) :
    (runAdaptive uo fo n).rounds = n := by
  induction n with
  | zero => rfl
  | succ m ih => simpa [runAdaptive, adaptiveRound] using ih

theorem runAdaptive_numPts_length (uo : Nat → ℚ) (fo : Nat → List ℚ) (n : Nat) :
    (runAdaptive uo fo n).numPts.length = n := by
  induction n with
  | zero => rfl
  | succ m ih => simpa [runAdaptive, adaptiveRound] using ih

theorem runAdaptive_relErr_length (uo : Nat → ℚ) (fo : Nat → List ℚ) (n : Nat) :
    (runAdaptive uo fo n).relErr.length = n := by
  induction n with
  | zero => rfl
  | succ m ih => simpa [runAdaptive, adaptiveRound] using ih

theorem runAdaptive_relEstErr_length (uo : Nat → ℚ) (fo : Nat → List ℚ) (n : Nat) :
    (runAdaptive uo fo n).relEstErr.length = n := by
  induction n with
  | zero => rfl
  | succ m ih => simpa [runAdaptive, adaptiveRound] using ih

theorem runAdaptive_xInt_succ (uo : Nat → ℚ) (fo : Nat → List ℚ) (n : Nat) :
    (runAdaptive uo fo (n + 1)).xInt
      = (runAdaptive uo fo n).xInt ++ (runAdaptive uo fo n).topPredX := rfl

/-- `numPts[i]` is the size of the merged interior point set of round `i`
(the `X_int` of the state after `i + 1` rounds), for every later state. -/
theorem runAdaptive_numPts_getD (uo : Nat → ℚ) (fo : Nat → List ℚ) (i n : Nat)
    (h : i < n) :
    (runAdaptive uo fo n).numPts.getD i 0 = (runAdaptive uo fo (i + 1)).xInt.length := by
  induction n with
  | zero => omega
  | succ m ih =>
    rcases Nat.lt_or_ge i m with him | him
    · rw [show runAdaptive uo fo (m + 1) = adaptiveRound uo fo (runAdaptive uo fo m) from rfl,
        adaptiveRound_numPts,
        List.getD_append _ _ _ _ (by rw [runAdaptive_numPts_length]; exact him)]
      exact ih him
    · have him' : i = m := by omega
      subst him'
      rw [show runAdaptive uo fo (i + 1) = adaptiveRound uo fo (runAdaptive uo fo i) from rfl,
        adaptiveRound_numPts]
      rw [List.getD_append_right _ _ _ _ (by rw [runAdaptive_numPts_length])]
      rw [runAdaptive_numPts_length]
      simp [adaptiveRound_xInt]

/-- C2: for consecutive rounds, `numPts[i] ≤ numPts[i+1]`; `numPts[i]` is
exactly the size of round `i`'s merged interior point set; and the interior
point set of round `i` is grown (by appending the promoted points), never
shrunk. -/
theorem C2_monotone_growth (uo : Nat → ℚ) (fo : Nat → List ℚ) (i n : Nat)
    (h : i + 1 < n) :
    (runAdaptive uo fo n).numPts.getD i 0 ≤ (runAdaptive uo fo n).numPts.getD (i + 1) 0
    ∧ (runAdaptive uo fo n).numPts.getD i 0 = (runAdaptive uo fo (i + 1)).xInt.length
    ∧ (runAdaptive uo fo (i + 1)).xInt
        = (runAdaptive uo fo i).xInt ++ (runAdaptive uo fo i).topPredX := by
  have h1 := runAdaptive_numPts_getD uo fo i n (by omega)
  have h2 := runAdaptive_numPts_getD uo fo (i + 1) n h
  refine ⟨?_, h1, runAdaptive_xInt_succ uo fo i⟩
  rw [h1, h2, runAdaptive_xInt_succ uo fo (i + 1), List.length_append]
  omega

/-- Witness for C2 at the trivial oracles, rounds `i = 0` and `i+1 = 1` of a
2-round run. -/
theorem C2_monotone_growth_witness :
    (runAdaptive (fun _ => 0) (fun _ => []) 2).numPts.getD 0 0
        ≤ (runAdaptive (fun _ => 0) (fun _ => []) 2).numPts.getD 1 0
    ∧ (runAdaptive (fun _ => 0) (fun _ => []) 2).numPts.getD 0 0
        = (runAdaptive (fun _ => 0) (fun _ => []) 1).xInt.length
    ∧ (runAdaptive (fun _ => 0) (fun _ => []) 1).xInt
        = (runAdaptive (fun _ => 0) (fun _ => []) 0).xInt
            ++ (runAdaptive (fun _ => 0) (fun _ => []) 0).topPredX :=
  C2_monotone_growth (fun _ => 0) (fun _ => []) 0 2 (by decide)

/-- C4: with `numIter = 3`, the adaptivity loop performs exactly 3 rounds for
every behaviour of the trained model (there is no convergence-triggered
early exit), and each of `rel_err`, `rel_est_err` and `numPts` ends up with
exactly 3 entries. -/
theorem C4_three_rounds (uo : Nat → ℚ) (fo : Nat → List ℚ) :
    (runAdaptive uo fo numIter).rounds = 3
    ∧ (runAdaptive uo fo numIter).relErr.length = 3
    ∧ (runAdaptive uo fo numIter).relEstErr.length = 3
    ∧ (runAdaptive uo fo numIter).numPts.length = 3 :=
  ⟨runAdaptive_rounds uo fo numIter, runAdaptive_relErr_length uo fo numIter,
    runAdaptive_relEstErr_length uo fo numIter, runAdaptive_numPts_length uo fo numIter⟩

/-! ## Helper lemmas: the point grids -/

theorem mem_grid_pair {xs ys : List ℚ} {p : ℚ × ℚ} :
    p ∈ (ys.map (fun y => xs.map (fun x => (x, y)))).flatten ↔ p.1 ∈ xs ∧ p.2 ∈ ys := by
  constructor
  · intro hp
    rcases List.mem_flatten.mp hp with ⟨l, hl, hpl⟩
    rcases List.mem_map.mp hl with ⟨y, hy, rfl⟩
    rcases List.mem_map.mp hpl with ⟨x, hx, hxp⟩
    rw [← hxp]
    exact ⟨hx, hy⟩
  · intro hp
    refine List.mem_flatten.mpr
      ⟨xs.map (fun x => (x, p.2)), List.mem_map.mpr ⟨p.2, hp.2, rfl⟩, ?_⟩
    exact List.mem_map.mpr ⟨p.1, hp.1, rfl⟩

theorem mem_unifGrid1D_int (len : ℚ) (n : Nat) (q : ℚ) :
    q ∈ unifGrid1D len n false
      ↔ ∃ a, a < n - 2 ∧ q = len * ((a : ℚ) + 1) / ((n : ℚ) - 1) := by
  unfold unifGrid1D
  simp only [Bool.false_eq_true, if_false, List.mem_map, List.mem_range]
  constructor
  · rintro ⟨a, ha, rfl⟩
    exact ⟨a, ha, rfl⟩
  · rintro ⟨a, ha, rfl⟩
    exact ⟨a, ha, rfl⟩

theorem mem_getUnifIntPts_int (xmax ymax : ℚ) (nx ny : Nat) (p : ℚ × ℚ) :
    p ∈ getUnifIntPts xmax ymax nx ny false
      ↔ (∃ a, a < nx - 2 ∧ p.1 = xmax * ((a : ℚ) + 1) / ((nx : ℚ) - 1))
        ∧ ∃ b, b < ny - 2 ∧ p.2 = ymax * ((b : ℚ) + 1) / ((ny : ℚ) - 1) := by
  unfold getUnifIntPts
  rw [mem_grid_pair, mem_unifGrid1D_int, mem_unifGrid1D_int]

theorem unifGrid1D_int_length (len : ℚ) (n : Nat) :
    (unifGrid1D len n false).length = n - 2 := by
  unfold unifGrid1D
  simp

theorem getUnifIntPts_int_length (xmax ymax : ℚ) (nx ny : Nat) :
    (getUnifIntPts xmax ymax nx ny false).length = (ny - 2) * (nx - 2) := by
  unfold getUnifIntPts
  rw [List.length_flatten, List.map_map]
  have hconst : (List.map (List.length ∘ fun y => (unifGrid1D xmax nx false).map
      (fun x => (x, y))) (unifGrid1D ymax ny false))
      = List.map (fun _ => nx - 2) (unifGrid1D ymax ny false) := by
    refine List.map_congr_left (fun y _ => ?_)
    simp [unifGrid1D_int_length]
  rw [hconst, List.map_const', List.sum_replicate, unifGrid1D_int_length, smul_eq_mul]

theorem seedIntPts_subset_predIntPts {p : ℚ × ℚ} (hp : p ∈ seedIntPts) :
    p ∈ predIntPts := by
  rw [seedIntPts_def] at hp
  rw [predIntPts_def]
  rcases (mem_getUnifIntPts_int 2 1 101 51 p).mp hp with ⟨⟨a, ha, hpa⟩, ⟨b, hb, hpb⟩⟩
  refine (mem_getUnifIntPts_int 2 1 201 101 _).mpr
    ⟨⟨2 * a + 1, by omega, ?_⟩, ⟨2 * b + 1, by omega, ?_⟩⟩
  · rw [hpa]
    push_cast
    ring
  · rw [hpb]
    push_cast
    ring

theorem topIdx_subset_argsort {n : Nat} {fErr : List ℚ} {i : Nat}
    (hi : i ∈ topIdx n fErr) : i ∈ argsortNegAbs fErr := by
  unfold topIdx pyTake at hi
  split at hi <;> exact List.mem_of_mem_take hi

/-- Every point of `top_pred_X` takes its coordinates from the prediction
grid it was selected on. -/
theorem top_pred_X_coords_mem {n : Nat} {fErr fVal : List ℚ} {predX : List (ℚ × ℚ)}
    (hlen : fErr.length ≤ predX.length) {p : ℚ × ℚ × ℚ}
    (hp : p ∈ top_pred_X n fErr fVal predX) : (p.1, p.2.1) ∈ predX := by
  rcases List.mem_map.mp hp with ⟨i, hi, rfl⟩
  have hilt : i < predX.length :=
    lt_of_lt_of_le (argsortNegAbs_mem_lt fErr (topIdx_subset_argsort hi)) hlen
  rw [List.getD_eq_getElem predX (0, 0) hilt]
  exact List.getElem_mem hilt

/-- Invariant: every interior training point of every round, and every
point promoted for the next round, has its coordinates on the dense
error-indicator evaluation grid or on the seed grid (which is contained in
the former). -/
theorem runAdaptive_coords_mem (uo : Nat → ℚ) (fo : Nat → List ℚ) (n : Nat) :
    (∀ p ∈ (runAdaptive uo fo n).xInt, (p.1, p.2.1) ∈ predIntPts)
    ∧ ∀ p ∈ (runAdaptive uo fo n).topPredX, (p.1, p.2.1) ∈ predIntPts := by
  induction n with
  | zero =>
    constructor
    · intro p hp
      rcases List.mem_map.mp hp with ⟨q, hq, rfl⟩
      exact seedIntPts_subset_predIntPts hq
    · intro p hp
      simp [initState, runAdaptive] at hp
  | succ m ih =>
    constructor
    · intro p hp
      rw [runAdaptive_xInt_succ] at hp
      rcases List.mem_append.mp hp with h | h
      · exact ih.1 p h
      · exact ih.2 p h
    · intro p hp
      have hp' : p ∈ roundTopPredX fo (runAdaptive uo fo m).rounds := hp
      rw [roundTopPredX] at hp'
      refine top_pred_X_coords_mem ?_ hp'
      rw [roundFErr, List.length_zipWith, roundFVal, List.length_replicate]
      exact min_le_left _ _

/-- C3 (amended): the dense grid on which the residual error indicator is
evaluated has strictly more points than the seed training set, and in every
round of the loop it *contains* the entire current training point set
(rather than being disjoint from it), so the refinement decision is
computed at the training points as well. -/
theorem C3_eval_grid (uo : Nat → ℚ) (fo : Nat → List ℚ) (n : Nat) :
    seedIntPts.length < predIntPts.length
    ∧ ∀ p ∈ (runAdaptive uo fo n).xInt, (p.1, p.2.1) ∈ predIntPts := by
  constructor
  · rw [seedIntPts_def, predIntPts_def, getUnifIntPts_int_length, getUnifIntPts_int_length]
    norm_num
  · exact (runAdaptive_coords_mem uo fo n).1

/-- Witness for C3 at the trivial oracles: the seed point `(1/50, 1/50)` of
the round-0 training set lies on the evaluation grid. -/
theorem C3_eval_grid_witness :
    seedIntPts.length < predIntPts.length
    ∧ ∀ p ∈ (runAdaptive (fun _ => 0) (fun _ => []) 0).xInt,
        (p.1, p.2.1) ∈ predIntPts :=
  C3_eval_grid (fun _ => 0) (fun _ => []) 0

/-- Counterexample to C3 as stated: the evaluation grid is *not* disjoint
from the training set.  The point `(1/50, 1/50)` (that is, `(0.02, 0.02)`)
is both a round-0 interior training point and an evaluation-grid point. -/
theorem C3_shared_point_cex :
    ((1/50 : ℚ), (1/50 : ℚ)) ∈ predIntPts
    ∧ ((1/50 : ℚ), (1/50 : ℚ), (0:ℚ)) ∈ (runAdaptive (fun _ => 0) (fun _ => []) 0).xInt := by
  constructor
  · rw [predIntPts_def]
    refine (mem_getUnifIntPts_int 2 1 201 101 _).mpr
      ⟨⟨1, by omega, ?_⟩, ⟨1, by omega, ?_⟩⟩ <;> norm_num
  · show _ ∈ seedXInt
    have hseed : ((1/50 : ℚ), (1/50 : ℚ)) ∈ seedIntPts := by
      rw [seedIntPts_def]
      refine (mem_getUnifIntPts_int 2 1 101 51 _).mpr
        ⟨⟨0, by omega, ?_⟩, ⟨0, by omega, ?_⟩⟩ <;> norm_num
    exact List.mem_map.mpr ⟨_, hseed, rfl⟩

/-! ## The degenerate-norm case of the error indicator -/

theorem sumSq_replicate_zero (n : Nat) : sumSq (List.replicate n (0:ℚ)) = 0 := by
  simp [sumSq, List.map_replicate]

/-- When the model's residual prediction is exactly zero, `f_err` is the
all-zero list on the evaluation grid. -/
theorem roundFErr_zero_oracle (r : Nat) :
    roundFErr (fun _ => List.replicate predIntPts.length 0) r
      = List.replicate predIntPts.length 0 := by
  rw [roundFErr, roundFVal]
  rw [List.zipWith_replicate]
  simp

theorem roundRelEstErr_zero_oracle (r : Nat) :
    roundRelEstErr (fun _ => List.replicate predIntPts.length 0) r = NpVal.nan := by
  rw [roundRelEstErr, roundFErr_zero_oracle, roundFVal]
  simp [normRatioSq, sumSq_replicate_zero]

/-- C5 (the code's actual behaviour): with `f_target` identically zero (as
it always is: `f_val = np.zeros_like(...)`) and the predicted residual
`f_pred` exactly zero as well, every recorded `rel_est_err[i]` is NaN
(`0/0` under NumPy semantics), not `0`: the zero-denominator division is
not guarded in the source. -/
theorem C5_degenerate_norm :
    (runAdaptive (fun _ => 0) (fun _ => List.replicate predIntPts.length 0)
        numIter).relEstErr = [NpVal.nan, NpVal.nan, NpVal.nan] := by
  show ((([] ++ [roundRelEstErr _ 0]) ++ [roundRelEstErr _ _]) ++ [roundRelEstErr _ _]) = _
  rw [roundRelEstErr_zero_oracle, roundRelEstErr_zero_oracle, roundRelEstErr_zero_oracle]
  rfl

/-! ## PlateWithHole: strongly imposed symmetry conditions
(tf2/PlateWithHole.py, lines 49-58) -/

/-- Embeds `Elast_PlateWithHole.dirichletBound`: the raw network outputs
`u_val`, `v_val` are multiplied by the coordinates `xPhys`, `yPhys` for
strong imposition of the symmetry Dirichlet conditions. -/
def dirichletBound (uRaw vRaw xPhys yPhys : ℚ) : ℚ × ℚ :=
  (xPhys * uRaw, yPhys * vRaw)

/-- C9: for every raw network output (hence every parameterization) and
every input point, the predicted x-displacement vanishes on `x = 0` and the
predicted y-displacement vanishes on `y = 0`. -/
theorem C9_strong_dirichlet (uRaw vRaw xPhys yPhys : ℚ) :
    (xPhys = 0 → (dirichletBound uRaw vRaw xPhys yPhys).1 = 0)
    ∧ (yPhys = 0 → (dirichletBound uRaw vRaw xPhys yPhys).2 = 0) := by
  constructor <;> rintro rfl <;> simp [dirichletBound]

/-- Witness for C9 at concrete raw outputs `5`, `7` and points on the two
symmetry axes. -/
theorem C9_strong_dirichlet_witness :
    (dirichletBound 5 7 0 3).1 = 0 ∧ (dirichletBound 5 7 2 0).2 = 0 :=
  ⟨(C9_strong_dirichlet 5 7 0 3).1 rfl, (C9_strong_dirichlet 5 7 2 0).2 rfl⟩

/-! ## Trainer phase order -/

/-- The two optimizer phases of a training run. -/
inductive TrainPhase where
  | firstOrder
  | quasiNewtonScipy
  | quasiNewtonTFP
deriving DecidableEq

/-- `train_op2 = "TFP-BFGS"` (tf2/PlateWithHole.py, line 184). -/
def train_op2 : String := "TFP-BFGS"

/-- Embeds the training driver of tf2/PlateWithHole.py (lines 196-230):
`network_learn` (the Adam first-order phase) always runs first; afterwards
the configuration string selects either the SciPy L-BFGS-B branch or the
TFP BFGS branch — each branch performs one quasi-Newton phase, so the
second-order phase is reached unconditionally. -/
def trainingTrace (op2 : String) : List TrainPhase :=
  [TrainPhase.firstOrder]
    ++ (if op2 = "SciPy-LBFGS-B" then [TrainPhase.quasiNewtonScipy]
        else [TrainPhase.quasiNewtonTFP])

/-- Modelled from the spec: the Trainer state machine of spec section 4.3
(`PoissonEquationColl.train` lives in `utils/PoissonEqAdapt.py`, not under
src/): at step `t` the trainer is in FirstOrder while `t < numIts` (the
fixed first-order budget) and in QuasiNewton from `t = numIts` on; the
transition is unconditional once the budget is exhausted. -/
def trainerState (numIts t : Nat) : TrainPhase :=
  if t < numIts then TrainPhase.firstOrder else TrainPhase.quasiNewtonTFP

/-- Modelled from the spec: the Adam loss buffer `loss_adam_buff` records
the loss at every one of the `numIts` first-order steps (spec section 4.3;
used at lines 164-167 of AcousticDuct_adaptive.py, where the buffer is
plotted against `np.arange(1, num_train_its+1)`). -/
def loss_adam_buff (numIts : Nat) (adamLoss : Nat → ℚ) : List ℚ :=
  (List.range numIts).map adamLoss

/-- C7: the first-order phase always runs first and the quasi-Newton phase
always follows, whatever the optimizer configuration; the trainer state
machine is in FirstOrder exactly for the fixed budget and in QuasiNewton
unconditionally afterwards (never before, never skipped), and the Adam loss
buffer records one loss per first-order step. -/
theorem C7_phase_order (op2 : String) (numIts t : Nat) (adamLoss : Nat → ℚ) :
    ((trainingTrace op2).length = 2
      ∧ (trainingTrace op2).getD 0 TrainPhase.quasiNewtonTFP = TrainPhase.firstOrder
      ∧ ((trainingTrace op2).getD 1 TrainPhase.firstOrder = TrainPhase.quasiNewtonScipy
          ∨ (trainingTrace op2).getD 1 TrainPhase.firstOrder = TrainPhase.quasiNewtonTFP))
    ∧ (t < numIts → trainerState numIts t = TrainPhase.firstOrder)
    ∧ (numIts ≤ t → trainerState numIts t = TrainPhase.quasiNewtonTFP)
    ∧ (loss_adam_buff numIts adamLoss).length = numIts := by
  refine ⟨⟨?_, ?_, ?_⟩, ?_, ?_, ?_⟩
  · unfold trainingTrace
    split <;> rfl
  · rfl
  · unfold trainingTrace
    split
    · exact Or.inl rfl
    · exact Or.inr rfl
  · intro ht
    simp [trainerState, ht]
  · intro ht
    simp [trainerState, Nat.not_lt.mpr ht]
  · simp [loss_adam_buff]

/-- Witness for C7: with the source's budget `num_train_its = 10000`, the
trainer is in FirstOrder at step 5 and in QuasiNewton at step 10000. -/
theorem C7_phase_order_witness :
    trainerState 10000 5 = TrainPhase.firstOrder
    ∧ trainerState 10000 10000 = TrainPhase.quasiNewtonTFP :=
  ⟨(C7_phase_order "TFP-BFGS" 10000 5 (fun _ => 0)).2.1 (by decide),
   (C7_phase_order "TFP-BFGS" 10000 10000 (fun _ => 0)).2.2.1 (by decide)⟩

/-! ## PlateWithHole test phase: stress errors and the energy norm
(tf2/PlateWithHole.py, lines 277-294) -/

/-- The exact and computed stress components at one test point. -/
structure StressData where
  xxExact : ℚ
  yyExact : ℚ
  xyExact : ℚ
  xxComp : ℚ
  yyComp : ℚ
  xyComp : ℚ

/-- `stress_xx_err = stress_xx_exact - stress_xx_comp` (line 280). -/
def stress_xx_err (s : StressData) : ℚ := s.xxExact - s.xxComp

/-- `stress_yy_err = stress_yy_exact - stress_yy_comp` (line 281). -/
def stress_yy_err (s : StressData) : ℚ := s.yyExact - s.yyComp

/-- `stress_xy_err = stress_xx_exact - stress_xx_comp` (line 282): the
source computes the xy error term from the *xx* stresses. -/
def stress_xy_err (s : StressData) : ℚ := s.xxExact - s.xxComp

/-- The xy error term as the spec's naming intends it: the mismatch of the
xy stresses. -/
def stress_xy_err_intended (s : StressData) : ℚ := s.xyExact - s.xyComp

/-- Modelled from the spec: the plane-stress material matrix
`pred_model.Emat` (`utils/Solvers.py`, not under src/), instantiated at the
script's `model_data` (`E = 1e2`, `nu = 0.3`, state `"plane stress"`): the
standard plane-stress stiffness `E/(1-nu^2) * [[1, nu, 0], [nu, 1, 0],
[0, 0, (1-nu)/2]]` of the constitutive law stated in the module
docstring. -/
def Emat : Matrix (Fin 3) (Fin 3) ℚ :=
  !![10000/91, 3000/91, 0; 3000/91, 10000/91, 0; 0, 0, 3500/91]

/-- `C_inv = np.linalg.inv(pred_model.Emat)` (line 284), given in closed
form; `Emat_C_inv_inverse` checks it is the two-sided inverse. -/
def C_inv : Matrix (Fin 3) (Fin 3) ℚ :=
  !![1/100, -3/1000, 0; -3/1000, 1/100, 0; 0, 0, 13/500]

theorem Emat_C_inv_inverse : Emat * C_inv = 1 ∧ C_inv * Emat = 1 := by
  constructor <;>
    · ext i j
      fin_cases i <;> fin_cases j <;>
        simp [Emat, C_inv, Matrix.mul_apply, Fin.sum_univ_three, Matrix.one_apply] <;>
        norm_num

/-- The quadratic form `v @ C_inv @ v.T` accumulated at each test point
(lines 291-292). -/
def quadFormCinv (v : Fin 3 → ℚ) : ℚ := Matrix.dotProduct v (C_inv.mulVec v)

/-- `err_pt` of line 289, with the xy slot as the source computes it. -/
def errVec (s : StressData) : Fin 3 → ℚ :=
  ![stress_xx_err s, stress_yy_err s, stress_xy_err s]

/-- `err_pt` as intended: the xy slot holds the xy mismatch. -/
def errVecIntended (s : StressData) : Fin 3 → ℚ :=
  ![stress_xx_err s, stress_yy_err s, stress_xy_err_intended s]

/-- `norm_pt` of line 290 (exact stresses). -/
def normVec (s : StressData) : Fin 3 → ℚ := ![s.xxExact, s.yyExact, s.xyExact]

/-- `energy_err` accumulated over the test points (lines 285-291). -/
def energy_err (pts : List StressData) : ℚ := (pts.map (fun s => quadFormCinv (errVec s))).sum

/-- The energy error with the intended xy error term. -/
def energy_err_intended (pts : List StressData) : ℚ :=
  (pts.map (fun s => quadFormCinv (errVecIntended s))).sum

/-- `energy_norm` accumulated over the test points (lines 286-292). -/
def energy_norm (pts : List StressData) : ℚ :=
  (pts.map (fun s => quadFormCinv (normVec s))).sum

/-- The square of the reported relative energy error
`np.sqrt(energy_err/energy_norm)` (line 294); comparing squares is
equivalent to comparing the reported values, both being nonnegative. -/
def relEnergyErrSq (pts : List StressData) : ℚ := energy_err pts / energy_norm pts

/-- The same report with the intended xy error term. -/
def relEnergyErrSqIntended (pts : List StressData) : ℚ :=
  energy_err_intended pts / energy_norm pts

/-- C10 (amended): the xy error term of the test phase is the xx mismatch,
and on inputs where the xx and xy stress errors coincide pointwise the
reported relative energy error equals its intended definition (a
sufficient condition — not `only' there, see the counterexample). -/
theorem C10_energy_error (pts : List StressData)
    (h : ∀ s ∈ pts, stress_xy_err s = stress_xy_err_intended s) :
    (∀ s ∈ pts, stress_xy_err s = s.xxExact - s.xxComp)
    ∧ relEnergyErrSq pts = relEnergyErrSqIntended pts := by
  refine ⟨fun s _ => rfl, ?_⟩
  unfold relEnergyErrSq relEnergyErrSqIntended energy_err energy_err_intended
  have hmap : pts.map (fun s => quadFormCinv (errVec s))
      = pts.map (fun s => quadFormCinv (errVecIntended s)) := by
    refine List.map_congr_left (fun s hs => ?_)
    unfold errVec errVecIntended
    rw [h s hs]
  rw [hmap]

/-- Witness for C10 at a single test point with all stresses zero. -/
theorem C10_energy_error_witness :
    (∀ s ∈ [StressData.mk 0 0 0 0 0 0], stress_xy_err s = s.xxExact - s.xxComp)
    ∧ relEnergyErrSq [StressData.mk 0 0 0 0 0 0]
        = relEnergyErrSqIntended [StressData.mk 0 0 0 0 0 0] :=
  C10_energy_error [StressData.mk 0 0 0 0 0 0]
    (by intro s hs; simp [List.mem_singleton] at hs; subst hs; rfl)

/-- Counterexample to C10 as stated: at the single test point with
`sigma_xx_exact = 1`, `sigma_xy_comp = 1` and all other components zero,
the reported relative energy error coincides with its intended value even
though the xx error (`1`) and the xy error (`-1`) do not coincide — so
"equals the intended definition *only* where the errors coincide" is
false. -/
theorem C10_energy_error_cex :
    relEnergyErrSq [StressData.mk 1 0 0 0 0 1]
        = relEnergyErrSqIntended [StressData.mk 1 0 0 0 0 1]
    ∧ stress_xy_err_intended (StressData.mk 1 0 0 0 0 1)
        ≠ stress_xx_err (StressData.mk 1 0 0 0 0 1) := by
  constructor
  · unfold relEnergyErrSq relEnergyErrSqIntended energy_err energy_err_intended energy_norm
    simp only [List.map_cons, List.map_nil, List.sum_cons, List.sum_nil]
    unfold quadFormCinv errVec errVecIntended normVec C_inv
    unfold stress_xx_err stress_yy_err stress_xy_err stress_xy_err_intended
    simp [Matrix.mulVec, Matrix.dotProduct, Fin.sum_univ_three]
  · unfold stress_xy_err_intended stress_xx_err
    norm_num

/-! ## Exact-solution constants of the acoustic duct
(AcousticDuct_adaptive.py, lines 37-38, 53-57, 74-75)

The script computes these with floating-point NumPy; the embedding uses
exact real/complex arithmetic (hence `noncomputable` definitions), so the
floating-point tolerance of the round-trip becomes an exact identity. -/

/-- `kx = np.sqrt(k**2 - (m*np.pi)**2)` with `m = 2`, `k = 12` (line 54). -/
noncomputable def kx : ℝ := Real.sqrt (12 ^ 2 - (2 * Real.pi) ^ 2)

/-- Entry `LHS[0][0] = 1j*kx` (line 55). -/
noncomputable def lhs11 : ℂ := Complex.I * (kx : ℂ)

/-- Entry `LHS[0][1] = -1j*kx` (line 55). -/
noncomputable def lhs12 : ℂ := -(Complex.I * (kx : ℂ))

/-- Entry `LHS[1][0] = (k-kx)*np.exp(-2*1j*kx)` (line 55). -/
noncomputable def lhs21 : ℂ := ((12 : ℂ) - (kx : ℂ)) * Complex.exp (-(2 * Complex.I * (kx : ℂ)))

/-- Entry `LHS[1][1] = (k+kx)*np.exp(2*1j*kx)` (line 55). -/
noncomputable def lhs22 : ℂ := ((12 : ℂ) + (kx : ℂ)) * Complex.exp (2 * Complex.I * (kx : ℂ))

/-- `np.linalg.solve` on a 2x2 system `[[a,b],[c,d]] @ [A1,A2] = [e,f]`,
embedded as the exact Cramer solution. -/
noncomputable def solve2 (a b c d e f : ℂ) : ℂ × ℂ :=
  ((e * d - b * f) / (a * d - b * c), (a * f - e * c) / (a * d - b * c))

/-- `A = np.linalg.solve(LHS, RHS)` with `RHS = [[1],[0]]` (lines 56-57). -/
noncomputable def A : ℂ × ℂ := solve2 lhs11 lhs12 lhs21 lhs22 1 0

/-- `neumann_right_flux` (lines 74-75): the real part of
`cos(m*pi*y)*(A[0]*(-1j)*kx*exp(-1j*kx*x) + A[1]*1j*kx*exp(1j*kx*x))`. -/
noncomputable def neumann_right_flux (x y : ℝ) : ℝ :=
  (((Real.cos (2 * Real.pi * y) : ℝ) : ℂ)
    * (A.1 * (-Complex.I) * (kx : ℂ) * Complex.exp (-Complex.I * (kx : ℂ) * (x : ℂ))
      + A.2 * Complex.I * (kx : ℂ) * Complex.exp (Complex.I * (kx : ℂ) * (x : ℂ)))).re

/-- The round-trip recomputation of `kx` from `m = 2`, `k = 12`. -/
noncomputable def kx_recomputed : ℝ := Real.sqrt (12 ^ 2 - (2 * Real.pi) ^ 2)

/-- The round-trip recomputation of `A1, A2` by re-solving the 2x2 linear
system built from `kx_recomputed`. -/
noncomputable def A_recomputed : ℂ × ℂ :=
  solve2 (Complex.I * (kx_recomputed : ℂ)) (-(Complex.I * (kx_recomputed : ℂ)))
    (((12 : ℂ) - (kx_recomputed : ℂ)) * Complex.exp (-(2 * Complex.I * (kx_recomputed : ℂ))))
    (((12 : ℂ) + (kx_recomputed : ℂ)) * Complex.exp (2 * Complex.I * (kx_recomputed : ℂ)))
    1 0

/-- The round-trip re-evaluation of the exact-solution flux formula from
the recomputed constants. -/
noncomputable def flux_recomputed (x y : ℝ) : ℝ :=
  (((Real.cos (2 * Real.pi * y) : ℝ) : ℂ)
    * (A_recomputed.1 * (-Complex.I) * (kx_recomputed : ℂ)
        * Complex.exp (-Complex.I * (kx_recomputed : ℂ) * (x : ℂ))
      + A_recomputed.2 * Complex.I * (kx_recomputed : ℂ)
        * Complex.exp (Complex.I * (kx_recomputed : ℂ) * (x : ℂ)))).re

theorem solve2_correct (a b c d e f : ℂ) (h : a * d - b * c ≠ 0) :
    a * (solve2 a b c d e f).1 + b * (solve2 a b c d e f).2 = e
    ∧ c * (solve2 a b c d e f).1 + d * (solve2 a b c d e f).2 = f := by
  unfold solve2
  constructor <;> field_simp <;> ring

theorem kx_pos : 0 < kx := by
  apply Real.sqrt_pos.mpr
  nlinarith [Real.pi_lt_d2, Real.pi_pos]

/-- The bracket `(k+kx)e^{2i kx} + (k-kx)e^{-2i kx}` in the determinant. -/
noncomputable def detBracket : ℂ :=
  ((12 : ℂ) + (kx : ℂ)) * Complex.exp (((2 * kx : ℝ) : ℂ) * Complex.I)
    + ((12 : ℂ) - (kx : ℂ)) * Complex.exp (((-(2 * kx) : ℝ) : ℂ) * Complex.I)

theorem detBracket_re : detBracket.re = 24 * Real.cos (2 * kx) := by
  unfold detBracket
  simp only [Complex.add_re, Complex.mul_re, Complex.add_im, Complex.mul_im,
    Complex.sub_re, Complex.sub_im, Complex.exp_ofReal_mul_I_re,
    Complex.exp_ofReal_mul_I_im, Complex.ofReal_re, Complex.ofReal_im,
    Complex.re_ofNat, Complex.im_ofNat, Real.cos_neg, Real.sin_neg]
  ring

theorem detBracket_im : detBracket.im = 2 * kx * Real.sin (2 * kx) := by
  unfold detBracket
  simp only [Complex.add_re, Complex.mul_re, Complex.add_im, Complex.mul_im,
    Complex.sub_re, Complex.sub_im, Complex.exp_ofReal_mul_I_re,
    Complex.exp_ofReal_mul_I_im, Complex.ofReal_re, Complex.ofReal_im,
    Complex.re_ofNat, Complex.im_ofNat, Real.cos_neg, Real.sin_neg]
  ring

theorem det_eq_bracket : lhs11 * lhs22 - lhs12 * lhs21 = Complex.I * (kx : ℂ) * detBracket := by
  unfold lhs11 lhs12 lhs21 lhs22 detBracket
  have h1 : (2 : ℂ) * Complex.I * (kx : ℂ) = ((2 * kx : ℝ) : ℂ) * Complex.I := by
    push_cast
    ring
  have h2 : -((2 : ℂ) * Complex.I * (kx : ℂ)) = ((-(2 * kx) : ℝ) : ℂ) * Complex.I := by
    push_cast
    ring
  rw [h2, h1]
  ring

theorem detLHS_ne_zero : lhs11 * lhs22 - lhs12 * lhs21 ≠ 0 := by
  rw [det_eq_bracket]
  intro h
  have hkxC : (kx : ℂ) ≠ 0 := by
    exact_mod_cast ne_of_gt kx_pos
  have hB : detBracket = 0 := by
    rcases mul_eq_zero.mp h with h' | hB
    · rcases mul_eq_zero.mp h' with hI | hk
      · exact absurd hI Complex.I_ne_zero
      · exact absurd hk hkxC
    · exact hB
  have hc : Real.cos (2 * kx) = 0 := by
    have := congrArg Complex.re hB
    rw [detBracket_re] at this
    simpa using this
  have hs : Real.sin (2 * kx) = 0 := by
    have := congrArg Complex.im hB
    rw [detBracket_im] at this
    simp only [Complex.zero_im] at this
    have hkx := kx_pos
    nlinarith
  nlinarith [Real.sin_sq_add_cos_sq (2 * kx)]

/-- C6: the constants `A1, A2` produced by the linear solve do satisfy the
2x2 system (`i kx A1 - i kx A2 = 1` and
`(k-kx)e^{-2i kx} A1 + (k+kx)e^{2i kx} A2 = 0`, possible because the
determinant is nonzero), and recomputing `kx`, re-solving the system and
re-evaluating the exact-solution flux formula reproduces the right-edge
Neumann flux fed into the model at every boundary point, within the
tolerance `1e-10` (exactly, in real arithmetic). -/
theorem C6_roundtrip :
    (lhs11 * A.1 + lhs12 * A.2 = 1 ∧ lhs21 * A.1 + lhs22 * A.2 = 0)
    ∧ ∀ x y : ℝ, |flux_recomputed x y - neumann_right_flux x y| ≤ 1 / 10 ^ 10 := by
  constructor
  · exact solve2_correct lhs11 lhs12 lhs21 lhs22 1 0 detLHS_ne_zero
  · intro x y
    have hflux : flux_recomputed x y = neumann_right_flux x y := by
      unfold flux_recomputed neumann_right_flux A_recomputed A lhs11 lhs12 lhs21 lhs22
        kx_recomputed kx solve2
      rfl
    rw [hflux, sub_self, abs_zero]
    norm_num
